import Mathlib

/-!
# Sigilforge core: shallow embedding and verification

This file embeds the credential-lifecycle core of the Sigilforge repository
(`sigilforge-core` and the daemon `get_token` handler) in Lean 4 and proves
properties of the embedded code.

Conventions of the embedding:

* Rust `String`/`&str` values become Lean `String`; all string algorithms
  (splitting, prefix stripping, decimal printing/parsing) are carried out on
  the underlying `List Char` so that they can be reasoned about directly.
* `chrono::DateTime<Utc>` becomes an `Int` counting nanoseconds since the Unix
  epoch, and `chrono::Duration` an `Int` count of nanoseconds.
  `DateTime::timestamp` is floor division by `10^9`
  (`chrono` floors toward negative infinity) and
  `DateTime::from_timestamp(secs, 0)` is multiplication by `10^9`; chrono's
  representable year range is not modelled (all inputs of interest lie in it).
* Async functions become pure state-passing functions; the secret store a
  caller holds is threaded explicitly.  I/O that leaves the process (the HTTP
  exchange of a refresh token or of an authorization code) is modelled by an
  oracle function supplied as an argument.
* Fallible Rust functions returning `Result<T, E>` become `Except E T`.
-/

namespace Sigilforge

set_option autoImplicit false

/-! ## Character-list utilities mirroring the Rust std string operations -/

/-- Mirror of Rust `str::split(sep)` on a single separator character:
splits at every occurrence of `sep`, keeping empty segments
(`"".split = [""]`, `"a/".split('/') = ["a", ""]`). -/
def splitOnChar (sep : Char) : List Char → List (List Char)
  | [] => [[]]
  | c :: cs =>
    if c = sep then
      [] :: splitOnChar sep cs
    else
      match splitOnChar sep cs with
      | [] => [[c]]
      | r :: rs => (c :: r) :: rs

/-- Mirror of Rust `str::split_whitespace` restricted to a character
predicate: split at every matching character, dropping empty segments. -/
def splitDropping (p : Char → Bool) (cs : List Char) : List (List Char) :=
  ((cs.splitOnP p).filter (fun l => !l.isEmpty))

/-- Mirror of Rust `str::splitn(2, sep)` when the separator occurs: the part
before the first `sep` and the part after it; `none` when `sep` is absent
(in which case Rust's iterator yields a single part). -/
def splitFirst (sep : Char) : List Char → Option (List Char × List Char)
  | [] => none
  | c :: cs =>
    if c = sep then some ([], cs)
    else (splitFirst sep cs).map (fun p => (c :: p.1, p.2))

/-- `matchesFront pre l` is true when `pre` is an initial segment of `l`
(mirror of Rust `str::starts_with` on the decomposed strings). -/
def matchesFront : List Char → List Char → Bool
  | [], _ => true
  | _ :: _, [] => false
  | a :: as', b :: bs => a = b && matchesFront as' bs

/-- `occursIn needle hay` is true when `needle` occurs contiguously in `hay`
(mirror of Rust `str::contains`). -/
def occursIn (needle : List Char) : List Char → Bool
  | [] => matchesFront needle []
  | c :: t => matchesFront needle (c :: t) || occursIn needle t

/-- Mirror of Rust `str::to_lowercase` on the ASCII fragment used by
Sigilforge identifiers (`Char.toLower` lowercases `A`–`Z`). -/
def toLowerStr (s : String) : String := ⟨s.data.map Char.toLower⟩

@[simp] theorem matchesFront_nil (l : List Char) : matchesFront [] l = true := by
  cases l <;> rfl

theorem matchesFront_refl (l : List Char) : matchesFront l l = true := by
  induction l with
  | nil => rfl
  | cons c t ih => simp [matchesFront, ih]

theorem occursIn_of_matchesFront {needle hay : List Char}
    (h : matchesFront needle hay = true) : occursIn needle hay = true := by
  cases hay with
  | nil => simpa [occursIn] using h
  | cons c t => simp [occursIn, h]

/-- Splitting never yields an empty list of segments. -/
theorem splitOnChar_ne_nil (sep : Char) (cs : List Char) :
    splitOnChar sep cs ≠ [] := by
  induction cs with
  | nil => simp [splitOnChar]
  | cons c t ih =>
    by_cases h : c = sep
    · simp [splitOnChar, h]
    · simp only [splitOnChar, if_neg h]
      cases hs : splitOnChar sep t with
      | nil => exact absurd hs ih
      | cons r rs => simp

/-- A separator-free list splits into itself. -/
theorem splitOnChar_no_sep {sep : Char} {cs : List Char}
    (h : sep ∉ cs) : splitOnChar sep cs = [cs] := by
  induction cs with
  | nil => rfl
  | cons c t ih =>
    have hc : c ≠ sep := fun hc => h (hc ▸ List.mem_cons_self c t)
    have ht : sep ∉ t := fun hm => h (List.mem_cons_of_mem _ hm)
    simp [splitOnChar, hc, ih ht]

/-- Splitting at the first separator after a separator-free prefix. -/
theorem splitOnChar_append {sep : Char} {xs : List Char} (ys : List Char)
    (h : sep ∉ xs) :
    splitOnChar sep (xs ++ sep :: ys) = xs :: splitOnChar sep ys := by
  induction xs with
  | nil => simp [splitOnChar]
  | cons c t ih =>
    have hc : c ≠ sep := fun hc => h (hc ▸ List.mem_cons_self c t)
    have ht : sep ∉ t := fun hm => h (List.mem_cons_of_mem _ hm)
    simp only [List.cons_append, splitOnChar, if_neg hc]
    rw [show t.append (sep :: ys) = t ++ sep :: ys from rfl, ih ht]

/-! ## Decimal printing and parsing

`i64::to_string` and `str::parse::<i64>` from the Rust standard library,
modelled on unbounded integers (every value the embedded code prints or
parses is far inside the `i64` range, so overflow behaviour is irrelevant). -/

/-- The character of a decimal digit (`0 ≤ d ≤ 9`). -/
def digitChar (d : Nat) : Char := Char.ofNat (48 + d)

/-- The numeric value of a decimal digit character, `none` otherwise. -/
def digitVal? (c : Char) : Option Nat :=
  if 48 ≤ c.toNat ∧ c.toNat ≤ 57 then some (c.toNat - 48) else none

/-- Big-endian decimal digits of a natural number (fuel-indexed so that the
definition is structural; `n + 1` units of fuel always suffice). -/
def natDigitsAux : Nat → Nat → List Char
  | 0, _ => []
  | fuel + 1, n =>
    if n < 10 then [digitChar n]
    else natDigitsAux fuel (n / 10) ++ [digitChar (n % 10)]

/-- Big-endian decimal digits of a natural number, mirror of the digits
produced by Rust `u64::to_string`. -/
def natDigits (n : Nat) : List Char := natDigitsAux (n + 1) n

/-- Accumulating decimal parser over digit characters. -/
def parseNatAux : List Char → Nat → Option Nat
  | [], acc => some acc
  | c :: cs, acc =>
    match digitVal? c with
    | some d => parseNatAux cs (acc * 10 + d)
    | none => none

/-- Parse a non-empty all-digit character list as a natural number. -/
def parseNatDigits? (cs : List Char) : Option Nat :=
  if cs.isEmpty then none else parseNatAux cs 0

/-- Mirror of Rust `i64::to_string`. -/
def intToString (i : Int) : String :=
  if i < 0 then ⟨'-' :: natDigits i.natAbs⟩ else ⟨natDigits i.natAbs⟩

/-- Mirror of Rust `str::parse::<i64>` (an optional sign followed by at
least one decimal digit). -/
def parseInt? (s : String) : Option Int :=
  match s.data with
  | [] => none
  | c :: cs =>
    if c = '-' then (parseNatDigits? cs).map (fun n => -Int.ofNat n)
    else if c = '+' then (parseNatDigits? cs).map Int.ofNat
    else (parseNatDigits? (c :: cs)).map Int.ofNat

theorem digitVal?_digitChar {d : Nat} (h : d < 10) :
    digitVal? (digitChar d) = some d := by
  interval_cases d <;> rfl

theorem parseNatAux_append (l1 l2 : List Char) (acc : Nat) :
    parseNatAux (l1 ++ l2) acc =
      match parseNatAux l1 acc with
      | some m => parseNatAux l2 m
      | none => none := by
  induction l1 generalizing acc with
  | nil => rfl
  | cons c t ih =>
    simp only [List.cons_append, parseNatAux]
    cases digitVal? c with
    | none => rfl
    | some d => exact ih (acc * 10 + d)

theorem natDigitsAux_ne_nil {fuel n : Nat} (h : n < fuel) :
    natDigitsAux fuel n ≠ [] := by
  cases fuel with
  | zero => omega
  | succ f =>
    by_cases h10 : n < 10
    · simp [natDigitsAux, h10]
    · simp [natDigitsAux, h10]

theorem parseNatAux_natDigitsAux :
    ∀ fuel n acc, n < fuel →
      parseNatAux (natDigitsAux fuel n) acc =
        some (acc * 10 ^ (natDigitsAux fuel n).length + n) := by
  intro fuel
  induction fuel with
  | zero => intro n acc h; omega
  | succ f ih =>
    intro n acc h
    by_cases h10 : n < 10
    · simp [natDigitsAux, h10, parseNatAux, digitVal?_digitChar h10]
    · have hdiv : n / 10 < f := by omega
      simp only [natDigitsAux, if_neg h10, parseNatAux_append]
      rw [ih (n / 10) acc hdiv]
      have hmod : n % 10 < 10 := Nat.mod_lt _ (by omega)
      simp only [parseNatAux, digitVal?_digitChar hmod]
      have : (natDigitsAux f (n / 10) ++ [digitChar (n % 10)]).length =
          (natDigitsAux f (n / 10)).length + 1 := by simp
      rw [this]
      congr 1
      have h1 : (acc * 10 ^ (natDigitsAux f (n / 10)).length + n / 10) * 10
            + n % 10
          = acc * (10 ^ (natDigitsAux f (n / 10)).length * 10)
            + (n / 10 * 10 + n % 10) := by ring
      rw [h1, Nat.div_add_mod' n 10, pow_succ]

theorem parseNatDigits?_natDigits (n : Nat) :
    parseNatDigits? (natDigits n) = some n := by
  have hne : natDigitsAux (n + 1) n ≠ [] := natDigitsAux_ne_nil (by omega)
  have := parseNatAux_natDigitsAux (n + 1) n 0 (by omega)
  simp only [natDigits, parseNatDigits?, List.isEmpty_iff, hne, if_false, this,
    Nat.zero_mul, Nat.zero_add]

theorem mem_natDigitsAux_is_digit :
    ∀ fuel n c, c ∈ natDigitsAux fuel n → ∃ d, d < 10 ∧ c = digitChar d := by
  intro fuel
  induction fuel with
  | zero => intro n c h; simp [natDigitsAux] at h
  | succ f ih =>
    intro n c h
    by_cases h10 : n < 10
    · simp only [natDigitsAux, if_pos h10, List.mem_singleton] at h
      exact ⟨n, h10, h⟩
    · simp only [natDigitsAux, if_neg h10, List.mem_append,
        List.mem_singleton] at h
      rcases h with h | h
      · exact ih (n / 10) c h
      · exact ⟨n % 10, Nat.mod_lt _ (by omega), h⟩

theorem digitChar_ne_sign {d : Nat} (h : d < 10) :
    digitChar d ≠ '-' ∧ digitChar d ≠ '+' := by
  interval_cases d <;> exact ⟨by decide, by decide⟩

theorem parseInt?_cons (c : Char) (cs : List Char) :
    parseInt? ⟨c :: cs⟩ =
      if c = '-' then (parseNatDigits? cs).map (fun n => -Int.ofNat n)
      else if c = '+' then (parseNatDigits? cs).map Int.ofNat
      else (parseNatDigits? (c :: cs)).map Int.ofNat := rfl

/-- Round trip: parsing the printed decimal form of an integer recovers it. -/
theorem parseInt?_intToString (i : Int) : parseInt? (intToString i) = some i := by
  by_cases hneg : i < 0
  · have h1 : parseInt? (intToString i)
        = (parseNatDigits? (natDigits i.natAbs)).map (fun n => -Int.ofNat n) := by
      simp [intToString, if_pos hneg, parseInt?_cons]
    rw [h1, parseNatDigits?_natDigits, Option.map_some']
    congr 1
    simp only [Int.ofNat_eq_natCast]
    omega
  · simp only [intToString, if_neg hneg]
    cases hd : natDigits i.natAbs with
    | nil => exact absurd hd (natDigitsAux_ne_nil (by omega))
    | cons c cs =>
      have hc : c ∈ natDigits i.natAbs := by rw [hd]; exact List.mem_cons_self _ _
      obtain ⟨d, hdlt, rfl⟩ := mem_natDigitsAux_is_digit _ _ _ hc
      obtain ⟨hm, hp⟩ := digitChar_ne_sign hdlt
      rw [parseInt?_cons, if_neg hm, if_neg hp, ← hd,
        parseNatDigits?_natDigits, Option.map_some']
      congr 1
      simp only [Int.ofNat_eq_natCast]
      omega

/-! ## Data model

`sigilforge-core/src/store/mod.rs` (Secret), `src/model.rs` (identifiers,
`CredentialType`, `CredentialRef`), `src/token.rs` (Token, TokenSet, errors). -/

/-- `Secret`: a wrapper around a string; the value is reachable only through
`Secret.val` (the mirror of `expose`). -/
structure Secret where
  val : String
  deriving DecidableEq

/-- `Secret::new`. -/
def Secret.new (v : String) : Secret := ⟨v⟩

/-- The string produced by the `Debug` implementation of `Secret`
(`write!(f, "Secret([REDACTED])")`): a constant, independent of the value. -/
def secretDebugRender (_ : Secret) : String := "Secret([REDACTED])"

/-- The string produced by the `Display` implementation of `Secret`
(`write!(f, "[REDACTED]")`): a constant, independent of the value. -/
def secretDisplayRender (_ : Secret) : String := "[REDACTED]"

/-- `ServiceId`: newtype over `String`. -/
structure ServiceId where
  val : String
  deriving DecidableEq

/-- `ServiceId::new` normalizes to lowercase. -/
def ServiceId.new (s : String) : ServiceId := ⟨toLowerStr s⟩

/-- `AccountId`: newtype over `String`; `AccountId::new` stores it verbatim. -/
structure AccountId where
  val : String
  deriving DecidableEq

def AccountId.new (s : String) : AccountId := ⟨s⟩

/-- `CredentialType` exactly as declared in `model.rs` (the enum there has no
`TokenScopes` variant even though `token_manager.rs` names one; the token
manager embedding below uses `custom "token_scopes"`, which per the spec's
key namespace serializes to the same `token_scopes` key string). -/
inductive CredentialType where
  | accessToken
  | refreshToken
  | tokenExpiry
  | apiKey
  | clientId
  | clientSecret
  | custom (name : String)
  deriving DecidableEq

/-- `CredentialType::as_str`. -/
def CredentialType.asStr : CredentialType → String
  | .accessToken => "access_token"
  | .refreshToken => "refresh_token"
  | .tokenExpiry => "token_expiry"
  | .apiKey => "api_key"
  | .clientId => "client_id"
  | .clientSecret => "client_secret"
  | .custom s => s

/-- The `match parts[2]` arms of `CredentialRef::from_auth_uri`. -/
def credTypeOfString (s : String) : CredentialType :=
  if s = "token" ∨ s = "access_token" then .accessToken
  else if s = "refresh_token" then .refreshToken
  else if s = "api_key" then .apiKey
  else if s = "client_id" then .clientId
  else if s = "client_secret" then .clientSecret
  else .custom s

/-- `CredentialRef`. -/
structure CredentialRef where
  service : ServiceId
  account : AccountId
  credentialType : CredentialType
  deriving DecidableEq

/-- `ParseError` from `model.rs`. -/
inductive ParseError where
  | invalidScheme (expected got : String)
  | invalidPath (message : String)
  deriving DecidableEq

/-- The `Display` strings of `ParseError` (its `thiserror` attributes). -/
def ParseError.display : ParseError → String
  | .invalidScheme e g => "invalid scheme: expected " ++ "\x27" ++ e ++ "\x27, got \x27" ++ g ++ "\x27"
  | .invalidPath m => "invalid path: " ++ m

/-- `uri.strip_prefix("auth://")`. -/
def stripAuthScheme? : List Char → Option (List Char)
  | 'a' :: 'u' :: 't' :: 'h' :: ':' :: '/' :: '/' :: rest => some rest
  | _ => none

/-- `uri.split("://").next().unwrap_or("")`: the part of the string before
its first occurrence of `://` (the whole string when `://` is absent). -/
def takeUntilSub (sep : List Char) : List Char → List Char
  | [] => []
  | c :: t => if matchesFront sep (c :: t) then [] else c :: takeUntilSub sep t

/-- `CredentialRef::from_auth_uri`. -/
def CredentialRef.fromAuthUri (uri : String) : Except ParseError CredentialRef :=
  match stripAuthScheme? uri.data with
  | none =>
    .error (.invalidScheme "auth" ⟨takeUntilSub (':' :: '/' :: '/' :: []) uri.data⟩)
  | some path =>
    match splitOnChar '/' path with
    | [p1, p2, p3] =>
      .ok ⟨ServiceId.new ⟨p1⟩, AccountId.new ⟨p2⟩, credTypeOfString ⟨p3⟩⟩
    | parts =>
      .error (.invalidPath ("expected 3 path components (service/account/type), got "
        ++ ⟨natDigits parts.length⟩))

/-- `CredentialRef::to_auth_uri`. -/
def CredentialRef.toAuthUri (r : CredentialRef) : String :=
  "auth://" ++ r.service.val ++ "/" ++ r.account.val ++ "/" ++ r.credentialType.asStr

/-- `CredentialRef::to_key`. -/
def CredentialRef.toKey (r : CredentialRef) : String :=
  "sigilforge/" ++ r.service.val ++ "/" ++ r.account.val ++ "/" ++ r.credentialType.asStr

/-- `Token` from `token.rs` (field `access_token` holds the token value). -/
structure Token where
  accessToken : Secret
  tokenType : String
  expiresAt : Option Int
  scopes : List String
  deriving DecidableEq

/-- `Token::new`. -/
def Token.new (v : String) : Token := ⟨⟨v⟩, "Bearer", none, []⟩

/-- `Token::with_expiry`. -/
def Token.withExpiry (t : Token) (e : Int) : Token := { t with expiresAt := some e }

/-- `Token::with_scopes`. -/
def Token.withScopes (t : Token) (s : List String) : Token := { t with scopes := s }

/-- `Token::is_expired`: `expires_at.map(|exp| exp < Utc::now()).unwrap_or(false)`. -/
def Token.isExpired (t : Token) (now : Int) : Bool :=
  (t.expiresAt.map (fun e => decide (e < now))).getD false

/-- `Token::expires_within`:
`expires_at.map(|exp| exp < Utc::now() + duration).unwrap_or(false)`. -/
def Token.expiresWithinDur (t : Token) (now dur : Int) : Bool :=
  (t.expiresAt.map (fun e => decide (e < now + dur))).getD false

/-- `TokenSet`. -/
structure TokenSet where
  accessToken : Token
  refreshToken : Option Secret
  refreshedAt : Int
  deriving DecidableEq

/-- `TokenSet::new` (sets `refreshed_at = Utc::now()`, passed in as `now`). -/
def TokenSet.new (t : Token) (now : Int) : TokenSet := ⟨t, none, now⟩

/-- `TokenSet::with_refresh_token`. -/
def TokenSet.withRefreshToken (ts : TokenSet) (r : String) : TokenSet :=
  { ts with refreshToken := some ⟨r⟩ }

/-- `StoreError` from `store/mod.rs` (the serde error of
`SerializationError` is modelled by its message). -/
inductive StoreError where
  | notFound (key : String)
  | accessDenied (key : String)
  | backendError (message : String)
  | serializationError (message : String)
  | keyringUnavailable (message : String)
  deriving DecidableEq

/-- The `Display` strings of `StoreError`. -/
def StoreError.display : StoreError → String
  | .notFound k => "secret not found: " ++ k
  | .accessDenied k => "access denied to secret: " ++ k
  | .backendError m => "backend error: " ++ m
  | .serializationError m => "serialization error: " ++ m
  | .keyringUnavailable m => "keyring not available: " ++ m

/-- `TokenError` from `token.rs`. -/
inductive TokenError where
  | notFound (service account : String)
  | expired (message : String)
  | refreshFailed (message : String)
  | oauthError (message : String)
  | storageError (e : StoreError)
  | networkError (message : String)
  | providerNotConfigured (provider : String)
  deriving DecidableEq

/-- The `Display` strings of `TokenError`. -/
def TokenError.display : TokenError → String
  | .notFound s a => "no token available for " ++ s ++ "/" ++ a
  | .expired m => "token expired and refresh failed: " ++ m
  | .refreshFailed m => "token refresh failed: " ++ m
  | .oauthError m => "OAuth flow failed: " ++ m
  | .storageError e => "storage error: " ++ e.display
  | .networkError m => "network error: " ++ m
  | .providerNotConfigured p => "provider not configured: " ++ p

/-- `ResolveError` from `resolve.rs`. -/
inductive ResolveError where
  | invalidFormat (message : String)
  | notFound (reference : String)
  | unsupportedScheme (scheme : String)
  | storageError (e : StoreError)
  | tokenError (e : TokenError)
  | externalError (message : String)
  deriving DecidableEq

/-- `ResolvedValue` from `resolve.rs`. -/
inductive ResolvedValue where
  | secret (s : Secret)
  | plain (s : String)
  | multiple (vs : List (String × ResolvedValue))

/-! ## Secret store backends

`store/mod.rs` declares the `SecretStore` trait; `store/memory.rs` is the
in-process map backend.  A backend is a record of state-passing operations so
that the token manager below is, like `DefaultTokenManager<S: SecretStore>`,
generic in the store. -/

/-- A generic secret-store backend over a state type `σ`
(the `SecretStore` trait: `get`, `set`, `delete`). -/
structure Backend (σ : Type) where
  get : σ → String → Except StoreError (Option Secret) × σ
  set : σ → String → Secret → Except StoreError Unit × σ
  delete : σ → String → Except StoreError Unit × σ

/-- The state of `MemoryStore`: its `HashMap<String, Secret>`, as a map. -/
def MemStore : Type := String → Option Secret

/-- `MemoryStore::new()`. -/
def MemStore.empty : MemStore := fun _ => none

/-- `HashMap::insert`. -/
def memSet (st : MemStore) (k : String) (v : Secret) : MemStore :=
  fun q => if q = k then some v else st q

/-- `HashMap::remove`. -/
def memDelete (st : MemStore) (k : String) : MemStore :=
  fun q => if q = k then none else st q

/-- The `SecretStore` implementation of `MemoryStore`: every operation
succeeds (lock poisoning is outside the model). -/
def memBackend : Backend MemStore where
  get st k := (.ok (st k), st)
  set st k v := (.ok (), memSet st k v)
  delete st k := (.ok (), memDelete st k)

/-! ## Token manager

`token_manager.rs`: `DefaultTokenManager`.  `Utc::now()` is threaded as the
`now` argument; the HTTP leg of `refresh_access_token` (provider lookup,
client-credential fetch and the `exchange_refresh_token` POST) is an oracle
`String → Except TokenError TokenSet` from the stored refresh token to the
token set the provider response parses to. -/

/-- `chrono::Duration::minutes`, in nanoseconds. -/
def durationMinutes (m : Int) : Int := m * 60 * 1000000000

/-- `DEFAULT_EXPIRY_BUFFER_MINUTES = 5`. -/
def defaultExpiryBuffer : Int := durationMinutes 5

/-- `DateTime::timestamp`: whole seconds since the epoch, floored
(`Int` division by a positive divisor is floor division). -/
def datetimeTimestamp (dt : Int) : Int := dt / 1000000000

/-- `DateTime::from_timestamp(secs, 0)` (chrono's range check is not
modelled; every timestamp reachable here is in range). -/
def datetimeFromTimestamp (secs : Int) : Int := secs * 1000000000

/-- `DefaultTokenManager::credential_key`:
`format!("sigilforge/{}/{}/{}", service, account, cred_type)`. -/
def credentialKey (service : ServiceId) (account : AccountId)
    (ct : CredentialType) : String :=
  "sigilforge/" ++ service.val ++ "/" ++ account.val ++ "/" ++ ct.asStr

/-- `DefaultTokenManager::is_token_expired`. -/
def isTokenExpired (expiryBuffer now : Int) (t : Token) : Bool :=
  t.expiresWithinDur now expiryBuffer

/-- `DefaultTokenManager::store_credential`. -/
def storeCredential {σ : Type} (B : Backend σ) (st : σ) (service : ServiceId)
    (account : AccountId) (ct : CredentialType) (value : String) :
    Except TokenError Unit × σ :=
  match B.set st (credentialKey service account ct) ⟨value⟩ with
  | (.ok _, st1) => (.ok (), st1)
  | (.error e, st1) => (.error (.storageError e), st1)

/-- `DefaultTokenManager::get_credential`. -/
def getCredential {σ : Type} (B : Backend σ) (st : σ) (service : ServiceId)
    (account : AccountId) (ct : CredentialType) :
    Except TokenError (Option Secret) × σ :=
  match B.get st (credentialKey service account ct) with
  | (.ok v, st1) => (.ok v, st1)
  | (.error e, st1) => (.error (.storageError e), st1)

/-- `"a,b,c".split(',').filter(|s| !s.is_empty())` from `get_token_set`. -/
def splitScopes (s : String) : List String :=
  ((splitOnChar ',' s.data).filter (fun l => l ≠ [])).map (fun l => ⟨l⟩)

/-- `Vec::join(",")` (comma-join of the scope list) from `store_token_set`. -/
def intercalateChar (sep : Char) : List (List Char) → List Char
  | [] => []
  | [p] => p
  | p :: ps => p ++ sep :: intercalateChar sep ps

def joinComma (scopes : List String) : String :=
  ⟨intercalateChar ',' (scopes.map String.data)⟩

/-- `DefaultTokenManager::get_token_set`. -/
def getTokenSet {σ : Type} (B : Backend σ) (now : Int) (st : σ)
    (service : ServiceId) (account : AccountId) :
    Except TokenError (Option TokenSet) × σ :=
  match getCredential B st service account .accessToken with
  | (.error e, st1) => (.error e, st1)
  | (.ok none, st1) => (.ok none, st1)
  | (.ok (some accessSecret), st1) =>
    let token0 := Token.new accessSecret.val
    match getCredential B st1 service account .tokenExpiry with
    | (.error e, st2) => (.error e, st2)
    | (.ok expiryOpt, st2) =>
      let token1 :=
        match expiryOpt with
        | some expirySecret =>
          match parseInt? expirySecret.val with
          | some ts => token0.withExpiry (datetimeFromTimestamp ts)
          | none => token0
        | none => token0
      match getCredential B st2 service account (.custom "token_scopes") with
      | (.error e, st3) => (.error e, st3)
      | (.ok scopesOpt, st3) =>
        let token2 :=
          match scopesOpt with
          | some scopesSecret => token1.withScopes (splitScopes scopesSecret.val)
          | none => token1
        match getCredential B st3 service account .refreshToken with
        | (.error e, st4) => (.error e, st4)
        | (.ok refreshOpt, st4) =>
          let tokenSet0 := TokenSet.new token2 now
          let tokenSet1 :=
            match refreshOpt with
            | some r => tokenSet0.withRefreshToken r.val
            | none => tokenSet0
          (.ok (some tokenSet1), st4)

/-- `DefaultTokenManager::store_token_set`. -/
def storeTokenSet {σ : Type} (B : Backend σ) (st : σ) (service : ServiceId)
    (account : AccountId) (ts : TokenSet) : Except TokenError Unit × σ :=
  match storeCredential B st service account .accessToken
      ts.accessToken.accessToken.val with
  | (.error e, st1) => (.error e, st1)
  | (.ok _, st1) =>
    let expiryStep :=
      match ts.accessToken.expiresAt with
      | some expiresAt =>
        storeCredential B st1 service account .tokenExpiry
          (intToString (datetimeTimestamp expiresAt))
      | none => (.ok (), st1)
    match expiryStep with
    | (.error e, st2) => (.error e, st2)
    | (.ok _, st2) =>
      let scopesStep :=
        if ts.accessToken.scopes.isEmpty then (.ok (), st2)
        else storeCredential B st2 service account (.custom "token_scopes")
          (joinComma ts.accessToken.scopes)
      match scopesStep with
      | (.error e, st3) => (.error e, st3)
      | (.ok _, st3) =>
        let refreshStep :=
          match ts.refreshToken with
          | some r => storeCredential B st3 service account .refreshToken r.val
          | none => (.ok (), st3)
        match refreshStep with
        | (.error e, st4) => (.error e, st4)
        | (.ok _, st4) => (.ok (), st4)

/-- `DefaultTokenManager::revoke_tokens`: three best-effort deletes whose
results are discarded (`let _ = ...`), then `Ok(())`. -/
def revokeTokens {σ : Type} (B : Backend σ) (st : σ) (service : ServiceId)
    (account : AccountId) : Except TokenError Unit × σ :=
  let st1 := (B.delete st (credentialKey service account .accessToken)).2
  let st2 := (B.delete st1 (credentialKey service account .refreshToken)).2
  let st3 := (B.delete st2 (credentialKey service account .tokenExpiry)).2
  (.ok (), st3)

/-- `DefaultTokenManager::ensure_access_token`. -/
def ensureAccessToken {σ : Type} (B : Backend σ)
    (refreshOracle : String → Except TokenError TokenSet)
    (now expiryBuffer : Int) (st : σ) (service : ServiceId)
    (account : AccountId) : Except TokenError Token × σ :=
  match getTokenSet B now st service account with
  | (.error e, st1) => (.error e, st1)
  | (.ok (some tokenSet), st1) =>
    if !isTokenExpired expiryBuffer now tokenSet.accessToken then
      (.ok tokenSet.accessToken, st1)
    else
      match tokenSet.refreshToken with
      | some refreshToken =>
        match refreshOracle refreshToken.val with
        | .ok newTokenSet =>
          match storeTokenSet B st1 service account newTokenSet with
          | (.error e, st2) => (.error e, st2)
          | (.ok _, st2) => (.ok newTokenSet.accessToken, st2)
        | .error e =>
          (.error (.expired ("token refresh failed: " ++ e.display)), st1)
      | none =>
        (.error (.expired "token expired and no refresh token available"), st1)
  | (.ok none, st1) =>
    (.error (.notFound service.val account.val), st1)

/-! Memory-store specializations (the configuration exercised by the
repository's own tests): `memBackend` operations never fail, so the result
and the store can be given separately. -/

def getTokenSetM (now : Int) (st : MemStore) (service : ServiceId)
    (account : AccountId) : Except TokenError (Option TokenSet) :=
  (getTokenSet memBackend now st service account).1

def storeTokenSetM (st : MemStore) (service : ServiceId) (account : AccountId)
    (ts : TokenSet) : MemStore :=
  (storeTokenSet memBackend st service account ts).2

def revokeTokensM (st : MemStore) (service : ServiceId)
    (account : AccountId) : MemStore :=
  (revokeTokens memBackend st service account).2

def ensureAccessTokenM (refreshOracle : String → Except TokenError TokenSet)
    (now expiryBuffer : Int) (st : MemStore) (service : ServiceId)
    (account : AccountId) : Except TokenError Token × MemStore :=
  ensureAccessToken memBackend refreshOracle now expiryBuffer st service account

/-! ## Reference resolver

`resolve.rs`: `DefaultReferenceResolver` with its default `ResolverConfig`
(`enable_auth_scheme = true`, `enable_vals = false`).  The resolver and the
token manager share the backend state, matching the construction
`DefaultReferenceResolver::new(store, token_manager)` over one store. -/

structure ResolverConfig where
  enableAuthScheme : Bool
  enableVals : Bool
  deriving DecidableEq

def ResolverConfig.default : ResolverConfig := ⟨true, false⟩

/-- `DefaultReferenceResolver::resolve_ref`. -/
def resolveRef {σ : Type} (B : Backend σ)
    (refreshOracle : String → Except TokenError TokenSet)
    (now expiryBuffer : Int) (st : σ) (credRef : CredentialRef) :
    Except ResolveError ResolvedValue × σ :=
  match credRef.credentialType with
  | .accessToken =>
    match ensureAccessToken B refreshOracle now expiryBuffer st
        credRef.service credRef.account with
    | (.ok token, st1) => (.ok (.secret (Secret.new token.accessToken.val)), st1)
    | (.error e, st1) => (.error (.tokenError e), st1)
  | _ =>
    match B.get st credRef.toKey with
    | (.ok (some secret), st1) => (.ok (.secret secret), st1)
    | (.ok none, st1) => (.error (.notFound credRef.toAuthUri), st1)
    | (.error e, st1) => (.error (.storageError e), st1)

/-- `DefaultReferenceResolver::resolve`. -/
def resolve {σ : Type} (B : Backend σ)
    (refreshOracle : String → Except TokenError TokenSet)
    (now expiryBuffer : Int) (config : ResolverConfig) (st : σ)
    (reference : String) : Except ResolveError ResolvedValue × σ :=
  if matchesFront "auth://".data reference.data then
    if !config.enableAuthScheme then
      (.error (.unsupportedScheme "auth"), st)
    else
      match CredentialRef.fromAuthUri reference with
      | .error e => (.error (.invalidFormat e.display), st)
      | .ok credRef => resolveRef B refreshOracle now expiryBuffer st credRef
  else if matchesFront "vals:ref+".data reference.data then
    if !config.enableVals then
      (.error (.unsupportedScheme "vals"), st)
    else
      (.error (.externalError "vals resolution not yet implemented"), st)
  else
    (.error (.invalidFormat ("unknown reference format: " ++ reference)), st)

/-! ## PKCE flow

`oauth/pkce.rs`.  The mutable flow state is the `Arc<Mutex<Option<PkceCodeVerifier>>>`
cell, modelled as `Option String`; the provider-facing HTTP exchange
(`create_oauth_client`, `exchange_code`, response parsing) is an oracle from
the consumed verifier to the resulting token set. -/

/-- The verifier-cell effect of `PkceFlow::build_authorization_url`:
`*self.verifier.lock().unwrap() = Some(pkce_verifier)`. -/
def buildAuthorizationUrlVerifier (newVerifier : String)
    (_ : Option String) : Option String :=
  some newVerifier

/-- `PkceFlow::exchange_code`: `take()` the verifier (leaving `None`), fail
if it was absent, otherwise run the exchange. -/
def exchangeCode (exchangeOracle : String → Except TokenError TokenSet)
    (verifierCell : Option String) :
    Except TokenError TokenSet × Option String :=
  match verifierCell with
  | none =>
    (.error (.oauthError "PKCE verifier not found. Call build_authorization_url first."),
      none)
  | some verifier => (exchangeOracle verifier, none)

/-! ## PKCE local callback listener

The pure request-processing core of `PkceFlow::listen_for_callback`: what the
loop body does with one received HTTP request. -/

deriving instance DecidableEq for Except

/-- Outcome of one loop iteration of `listen_for_callback`: either return a
result to the caller (after writing the success/failure page) or write the
`400 Bad Request` page and keep listening. -/
inductive CallbackStep where
  | respond (result : Except TokenError String)
  | badRequest
  deriving DecidableEq

/-- The `code`/`state`/`error` variables accumulated by the query-parameter
loop. -/
structure QueryParams where
  code : Option String
  state : Option String
  error : Option String
  deriving DecidableEq

/-- The `for param in query.split('&')` loop: split each parameter at its
first `=` (`splitn(2, '=')`, parameters without `=` are skipped) and record
`code`, `state` and `error`, later occurrences overwriting earlier ones. -/
def parseQueryParams (query : List Char) : QueryParams :=
  (splitOnChar '&' query).foldl
    (fun acc param =>
      match splitFirst '=' param with
      | some (k, v) =>
        if k = "code".data then { acc with code := some ⟨v⟩ }
        else if k = "state".data then { acc with state := some ⟨v⟩ }
        else if k = "error".data then { acc with error := some ⟨v⟩ }
        else acc
      | none => acc)
    ⟨none, none, none⟩

/-- Strip one trailing carriage return (`str::lines` semantics). -/
def stripCR (cs : List Char) : List Char :=
  if cs.getLast? = some (Char.ofNat 13) then cs.dropLast else cs

/-- `request.lines().next()`: `none` for the empty string, otherwise the
text before the first newline with a trailing carriage return removed. -/
def linesNext? (request : String) : Option (List Char) :=
  match request.data with
  | [] => none
  | cs => some (stripCR (cs.takeWhile (fun c => c ≠ Char.ofNat 10)))

/-- One iteration of the `listen_for_callback` accept loop applied to the
bytes of one HTTP request. -/
def handleCallbackRequest (expectedState : String) (request : String) :
    CallbackStep :=
  match linesNext? request with
  | none => .badRequest
  | some firstLine =>
    match (splitDropping Char.isWhitespace firstLine).get? 1 with
    | none => .badRequest
    | some path =>
      match (splitOnChar '?' path).get? 1 with
      | none => .badRequest
      | some query =>
        let params := parseQueryParams query
        match params.error with
        | some err =>
          .respond (.error (.oauthError ("OAuth provider returned error: " ++ err)))
        | none =>
          match params.state with
          | some receivedState =>
            if receivedState = expectedState then
              match params.code with
              | some authCode => .respond (.ok authCode)
              | none => .badRequest
            else
              .respond (.error (.oauthError "state parameter mismatch"))
          | none =>
            match params.code with
            | some authCode => .respond (.ok authCode)
            | none => .badRequest

/-! ## Account store and the daemon `get_token` handler

`account_store.rs` and `sigilforge-daemon/src/api/handlers.rs`.  The store
state carries both the in-memory `accounts` vector and the JSON file it is
saved to (`save` rewrites the file from memory); file I/O and lock failures
are outside the model.  The RFC 3339 rendering of `expires_at` in the RPC
response is not modelled: the response keeps the timestamp itself. -/

structure Account where
  service : ServiceId
  id : AccountId
  scopes : List String
  createdAt : Int
  lastUsed : Option Int
  deriving DecidableEq

inductive AccountStoreError where
  | alreadyExists (service account : String)
  | notFound (service account : String)
  deriving DecidableEq

structure AccountStoreState where
  mem : List Account
  file : List Account
  deriving DecidableEq

/-- `iter().find(|a| a.service == service && a.id == account)`. -/
def findAccount (accounts : List Account) (service : ServiceId)
    (account : AccountId) : Option Account :=
  accounts.find? (fun acct => decide (acct.service = service ∧ acct.id = account))

/-- `AccountStore::get_account` (reads the in-memory map). -/
def getAccount (st : AccountStoreState) (service : ServiceId)
    (account : AccountId) : Option Account :=
  findAccount st.mem service account

/-- `AccountStore::save`: whole-file rewrite of `accounts.json` from the
in-memory data. -/
def saveAccounts (st : AccountStoreState) : AccountStoreState :=
  { st with file := st.mem }

/-- `iter_mut().find(...)` followed by the `last_used` assignment: update the
first matching entry. -/
def setLastUsedFirst (now : Int) (service : ServiceId) (account : AccountId) :
    List Account → List Account
  | [] => []
  | acct :: rest =>
    if acct.service = service ∧ acct.id = account then
      { acct with lastUsed := some now } :: rest
    else
      acct :: setLastUsedFirst now service account rest

/-- `AccountStore::update_last_used`. -/
def updateLastUsed (now : Int) (st : AccountStoreState) (service : ServiceId)
    (account : AccountId) : Except AccountStoreError Unit × AccountStoreState :=
  match findAccount st.mem service account with
  | none => (.error (.notFound service.val account.val), st)
  | some _ =>
    (.ok (), saveAccounts { st with mem := setLastUsedFirst now service account st.mem })

structure GetTokenResponse where
  token : String
  expiresAt : Option Int
  deriving DecidableEq

inductive RpcError where
  | invalidParams (message : String)
  | internalError (message : String)
  deriving DecidableEq

/-- `SigilforgeApiImpl::get_token`: existence check, then the fire-and-forget
`update_last_used` (its result is discarded by `let _ = ...`), then token
issuance through the token manager (memory store, with the daemon's refresh
oracle and clock threaded through). -/
def getTokenHandler (refreshOracle : String → Except TokenError TokenSet)
    (now expiryBuffer : Int) (accounts : AccountStoreState)
    (tokenStore : MemStore) (service account : String) :
    Except RpcError GetTokenResponse × AccountStoreState × MemStore :=
  let serviceId := ServiceId.new service
  let accountId := AccountId.new account
  match getAccount accounts serviceId accountId with
  | none =>
    (.error (.invalidParams ("Account " ++ service ++ "/" ++ account ++ " not found")),
      accounts, tokenStore)
  | some _ =>
    let accounts1 := (updateLastUsed now accounts serviceId accountId).2
    match ensureAccessTokenM refreshOracle now expiryBuffer tokenStore
        serviceId accountId with
    | (.ok token, tokenStore1) =>
      (.ok ⟨token.accessToken.val, token.expiresAt⟩, accounts1, tokenStore1)
    | (.error e, tokenStore1) =>
      (.error (.internalError
          ("Failed to get token: " ++ e.display ++ ". You may need to re-authenticate.")),
        accounts1, tokenStore1)

/-! ## Helper lemmas -/

theorem matchesFront_append_right {w l : List Char} (post : List Char)
    (h : matchesFront w l = true) : matchesFront w (l ++ post) = true := by
  induction w generalizing l with
  | nil => simp
  | cons a w' ih =>
    cases l with
    | nil => simp [matchesFront] at h
    | cons b l' =>
      simp only [matchesFront, Bool.and_eq_true] at h
      simp only [List.cons_append, matchesFront, Bool.and_eq_true]
      exact ⟨h.1, ih h.2⟩

theorem occursIn_append_left {w l : List Char} (pre : List Char)
    (h : occursIn w l = true) : occursIn w (pre ++ l) = true := by
  induction pre with
  | nil => simpa using h
  | cons c t ih =>
    simp only [List.cons_append, occursIn, Bool.or_eq_true]
    exact Or.inr ih

theorem occursIn_append_right {w l : List Char} (post : List Char)
    (h : occursIn w l = true) : occursIn w (l ++ post) = true := by
  induction l with
  | nil =>
    have hw : matchesFront w [] = true := by simpa [occursIn] using h
    cases w with
    | nil => exact occursIn_of_matchesFront (by simp)
    | cons a w' => simp [matchesFront] at hw
  | cons c t ih =>
    simp only [occursIn, Bool.or_eq_true] at h
    simp only [List.cons_append, occursIn, Bool.or_eq_true]
    rcases h with h | h
    · exact Or.inl (matchesFront_append_right post h)
    · exact Or.inr (ih h)

theorem credentialKey_inj {s : ServiceId} {a : AccountId}
    {t1 t2 : CredentialType}
    (h : credentialKey s a t1 = credentialKey s a t2) : t1.asStr = t2.asStr := by
  have hd : (credentialKey s a t1).data = (credentialKey s a t2).data := by rw [h]
  simp only [credentialKey, String.data_append, List.append_assoc] at hd
  have h1 := List.append_cancel_left hd
  have h2 := List.append_cancel_left h1
  have h3 := List.append_cancel_left h2
  have h4 := List.append_cancel_left h3
  have h5 := List.append_cancel_left h4
  calc t1.asStr = ⟨t1.asStr.data⟩ := rfl
    _ = ⟨t2.asStr.data⟩ := by rw [h5]
    _ = t2.asStr := rfl

theorem credentialKey_ne (s : ServiceId) (a : AccountId)
    {t1 t2 : CredentialType} (h : t1.asStr ≠ t2.asStr) :
    credentialKey s a t1 ≠ credentialKey s a t2 :=
  fun hk => h (credentialKey_inj hk)

/-- On the memory backend `get_token_set` leaves the store untouched. -/
theorem getTokenSet_mem_pair (now : Int) (st : MemStore) (s : ServiceId)
    (a : AccountId) :
    getTokenSet memBackend now st s a = (getTokenSetM now st s a, st) := by
  have h2 : (getTokenSet memBackend now st s a).2 = st := by
    simp only [getTokenSet, getCredential, memBackend]
    cases st (credentialKey s a CredentialType.accessToken) with
    | none => rfl
    | some x =>
      cases st (credentialKey s a CredentialType.tokenExpiry) <;>
        cases st (credentialKey s a (CredentialType.custom "token_scopes")) <;>
          cases st (credentialKey s a CredentialType.refreshToken) <;> rfl
  exact Prod.ext rfl h2

/-- On the memory backend `store_token_set` always succeeds. -/
theorem storeTokenSet_mem_pair (st : MemStore) (s : ServiceId) (a : AccountId)
    (ts : TokenSet) :
    storeTokenSet memBackend st s a ts = (.ok (), storeTokenSetM st s a ts) := by
  have h1 : (storeTokenSet memBackend st s a ts).1 = .ok () := by
    cases hE : ts.accessToken.expiresAt <;> cases hR : ts.refreshToken <;>
      by_cases hS : ts.accessToken.scopes.isEmpty <;>
        simp [storeTokenSet, storeCredential, memBackend, hE, hR, hS]
  exact Prod.ext h1 rfl

/-! ## Claim C5 -/

/-- C5: the token manager's staleness classification
(`is_token_expired` = `Token::expires_within` at the expiry buffer): with any
positive buffer of `m` minutes, a token expiring at `now + buffer/2` is
stale, a token expiring at `now + 2*buffer` is fresh, and a token without
`expires_at` is neither expired (`Token::is_expired`) nor stale. -/
theorem expiry_buffer_discipline (now m : Int) (hm : 0 < m) :
    (∀ v ty sc,
      isTokenExpired (durationMinutes m) now
        ⟨v, ty, some (now + durationMinutes m / 2), sc⟩ = true) ∧
    (∀ v ty sc,
      isTokenExpired (durationMinutes m) now
        ⟨v, ty, some (now + 2 * durationMinutes m), sc⟩ = false) ∧
    (∀ v ty sc, Token.isExpired ⟨v, ty, none, sc⟩ now = false ∧
      isTokenExpired (durationMinutes m) now ⟨v, ty, none, sc⟩ = false) := by
  refine ⟨fun v ty sc => ?_, fun v ty sc => ?_, fun v ty sc => ⟨rfl, rfl⟩⟩
  · simp only [isTokenExpired, Token.expiresWithinDur, Option.map_some',
      Option.getD_some, decide_eq_true_eq, durationMinutes]
    omega
  · simp only [isTokenExpired, Token.expiresWithinDur, Option.map_some',
      Option.getD_some, decide_eq_false_iff_not, durationMinutes]
    omega

/-- Witness for C5 at `now = 0` and the default five-minute buffer. -/
theorem expiry_buffer_discipline_witness :
    (0 : Int) < 5 ∧
    isTokenExpired (durationMinutes 5) 0
      ⟨⟨"tok"⟩, "Bearer", some (0 + durationMinutes 5 / 2), []⟩ = true :=
  ⟨by decide, (expiry_buffer_discipline 0 5 (by decide)).1 ⟨"tok"⟩ "Bearer" []⟩

/-! ## Claim C6 -/

/-- C6: the PKCE verifier is used exactly once.  `exchange_code` takes the
verifier out of the flow's cell, so after any `exchange_code` call the cell
is empty and a second call (without a new `build_authorization_url`) fails
with an `OAuthError` whose message contains `PKCE verifier not found`. -/
theorem pkce_verifier_single_use
    (oracle1 oracle2 : String → Except TokenError TokenSet)
    (cell : Option String) :
    (exchangeCode oracle1 cell).2 = none ∧
    exchangeCode oracle2 (exchangeCode oracle1 cell).2 =
      (.error (.oauthError
        "PKCE verifier not found. Call build_authorization_url first."), none) ∧
    occursIn "PKCE verifier not found".data
      "PKCE verifier not found. Call build_authorization_url first.".data
      = true := by
  refine ⟨?_, ?_, by decide⟩ <;> cases cell <;> rfl

/-! ## Claim C7 -/

/-- C7: `revoke_tokens` swallows the results of its three deletes and always
returns success, on any backend and also when repeated immediately; on the
memory backend a subsequent `get_token_set` finds nothing. -/
theorem revoke_tokens_idempotent_success {σ : Type} (B : Backend σ) (st : σ)
    (service : ServiceId) (account : AccountId) (now : Int) (mst : MemStore) :
    (revokeTokens B st service account).1 = .ok () ∧
    (revokeTokens B (revokeTokens B st service account).2 service account).1
      = .ok () ∧
    getTokenSetM now (revokeTokensM mst service account) service account
      = .ok none := by
  refine ⟨rfl, rfl, ?_⟩
  have hval : revokeTokensM mst service account
      (credentialKey service account .accessToken) = none := by
    simp only [revokeTokensM, revokeTokens, memBackend, memDelete]
    split_ifs <;> simp_all
  simp only [getTokenSetM, getTokenSet, getCredential, memBackend, hval]

/-! ## Claim C8 -/

/-- C8 (counterexample): the claim fails as universally quantified.  The
`Debug` rendering is the constant `Secret([REDACTED])`, and for the wrapped
value `cret` (length 4) that constant contains the value itself — a
substring of the value of length ≥ 4. -/
theorem secret_opacity_counterexample :
    occursIn (Secret.new "cret").val.data
      (secretDebugRender (Secret.new "cret")).data = true ∧
    4 ≤ (Secret.new "cret").val.data.length ∧
    occursIn (Secret.new "cret").val.data (Secret.new "cret").val.data
      = true := by decide

/-- C8 (amended): both default renderings of a `Secret` are fixed strings
independent of the wrapped value, so they contain no substring of the value
of length ≥ 4 except when that substring already occurs in the fixed text
`Secret([REDACTED])` itself. -/
theorem secret_renders_redacted (s : Secret) (w : List Char)
    (_hlen : 4 ≤ w.length) (_hsub : occursIn w s.val.data = true)
    (hred : occursIn w "Secret([REDACTED])".data = false) :
    secretDebugRender s = "Secret([REDACTED])" ∧
    secretDisplayRender s = "[REDACTED]" ∧
    occursIn w (secretDebugRender s).data = false ∧
    occursIn w (secretDisplayRender s).data = false := by
  refine ⟨rfl, rfl, hred, ?_⟩
  by_contra hdisp
  have hdisp' : occursIn w "[REDACTED]".data = true := by
    simpa [secretDisplayRender] using hdisp
  have hfull : occursIn w "Secret([REDACTED])".data = true := by
    have h1 : occursIn w ("[REDACTED]".data ++ ")".data) = true :=
      occursIn_append_right _ hdisp'
    have h2 : occursIn w ("Secret(".data ++ ("[REDACTED]".data ++ ")".data))
        = true := occursIn_append_left _ h1
    simpa using h2
  rw [hfull] at hred
  exact Bool.noConfusion hred

/-- Witness for C8 (amended) at the value `supersecret` and its substring
`uper`. -/
theorem secret_renders_redacted_witness :
    occursIn "uper".data (secretDebugRender (Secret.new "supersecret")).data
      = false :=
  (secret_renders_redacted (Secret.new "supersecret") "uper".data
    (by decide) (by decide) (by decide)).2.2.1

/-! ## Claim C1 -/

/-- C1 (counterexample): with a stored stale access token and no stored
refresh token, `ensure_access_token` fails with `Expired` whose message is
`token expired and no refresh token available` — not the message
`no refresh token available` stated by the claim. -/
theorem ensure_access_token_message_counterexample :
    (ensureAccessTokenM (fun _ => .error (.oauthError "boom"))
        1000000000000 defaultExpiryBuffer
        (memSet (memSet MemStore.empty
            (credentialKey ⟨"github"⟩ ⟨"me"⟩ .accessToken) ⟨"old"⟩)
          (credentialKey ⟨"github"⟩ ⟨"me"⟩ .tokenExpiry) ⟨"0"⟩)
        ⟨"github"⟩ ⟨"me"⟩).1
      = .error (.expired "token expired and no refresh token available") ∧
    "token expired and no refresh token available"
      ≠ "no refresh token available" := by decide

/-- C1 (amended): the full case analysis of `ensure_access_token` over the
memory store.  No stored set fails with `NotFound{service, account}`; a
fresh token is returned unchanged; a stale token with a refresh token is
refreshed and the new set persisted (`store_token_set`) before its access
token is returned; a stale token without refresh token fails with
`Expired{"token expired and no refresh token available"}`; a failing
refresh fails with `Expired{"token refresh failed: {underlying}"}`. -/
theorem ensure_access_token_case_analysis
    (oracle : String → Except TokenError TokenSet)
    (now buf : Int) (st : MemStore) (s : ServiceId) (a : AccountId) :
    (getTokenSetM now st s a = .ok none →
      ensureAccessTokenM oracle now buf st s a
        = (.error (.notFound s.val a.val), st)) ∧
    (∀ ts, getTokenSetM now st s a = .ok (some ts) →
      isTokenExpired buf now ts.accessToken = false →
      ensureAccessTokenM oracle now buf st s a = (.ok ts.accessToken, st)) ∧
    (∀ ts, getTokenSetM now st s a = .ok (some ts) →
      isTokenExpired buf now ts.accessToken = true →
      ts.refreshToken = none →
      ensureAccessTokenM oracle now buf st s a
        = (.error (.expired "token expired and no refresh token available"), st)) ∧
    (∀ ts r newTs, getTokenSetM now st s a = .ok (some ts) →
      isTokenExpired buf now ts.accessToken = true →
      ts.refreshToken = some r →
      oracle r.val = .ok newTs →
      ensureAccessTokenM oracle now buf st s a
        = (.ok newTs.accessToken, storeTokenSetM st s a newTs)) ∧
    (∀ ts r e, getTokenSetM now st s a = .ok (some ts) →
      isTokenExpired buf now ts.accessToken = true →
      ts.refreshToken = some r →
      oracle r.val = .error e →
      ensureAccessTokenM oracle now buf st s a
        = (.error (.expired ("token refresh failed: " ++ e.display)), st)) := by
  refine ⟨?_, ?_, ?_, ?_, ?_⟩
  · intro h
    simp [ensureAccessTokenM, ensureAccessToken, getTokenSet_mem_pair, h]
  · intro ts h hfresh
    simp [ensureAccessTokenM, ensureAccessToken, getTokenSet_mem_pair, h, hfresh]
  · intro ts h hstale hnone
    simp [ensureAccessTokenM, ensureAccessToken, getTokenSet_mem_pair, h,
      hstale, hnone]
  · intro ts r newTs h hstale hr horacle
    simp [ensureAccessTokenM, ensureAccessToken, getTokenSet_mem_pair, h,
      hstale, hr, horacle, storeTokenSet_mem_pair]
  · intro ts r e h hstale hr horacle
    simp [ensureAccessTokenM, ensureAccessToken, getTokenSet_mem_pair, h,
      hstale, hr, horacle]

/-- Witness for C1 (amended): the `NotFound` case on the empty store and the
no-refresh-token case on a store holding only a stale access token. -/
theorem ensure_access_token_case_analysis_witness :
    ensureAccessTokenM (fun _ => .error (.oauthError "boom"))
        0 defaultExpiryBuffer MemStore.empty ⟨"github"⟩ ⟨"me"⟩
      = (.error (.notFound "github" "me"), MemStore.empty) ∧
    ensureAccessTokenM (fun _ => .error (.oauthError "boom"))
        1000000000000 defaultExpiryBuffer
        (memSet (memSet MemStore.empty
            (credentialKey ⟨"github"⟩ ⟨"me"⟩ .accessToken) ⟨"old"⟩)
          (credentialKey ⟨"github"⟩ ⟨"me"⟩ .tokenExpiry) ⟨"0"⟩)
        ⟨"github"⟩ ⟨"me"⟩
      = (.error (.expired "token expired and no refresh token available"),
          (memSet (memSet MemStore.empty
              (credentialKey ⟨"github"⟩ ⟨"me"⟩ .accessToken) ⟨"old"⟩)
            (credentialKey ⟨"github"⟩ ⟨"me"⟩ .tokenExpiry) ⟨"0"⟩)) :=
  ⟨(ensure_access_token_case_analysis _ 0 defaultExpiryBuffer MemStore.empty
      ⟨"github"⟩ ⟨"me"⟩).1 (by decide),
   (ensure_access_token_case_analysis _ 1000000000000 defaultExpiryBuffer _
      ⟨"github"⟩ ⟨"me"⟩).2.2.1
      ⟨⟨⟨"old"⟩, "Bearer", some 0, []⟩, none, 1000000000000⟩
      (by decide) (by decide) rfl⟩

/-! ## Claim C2 -/

theorem stripAuthScheme?_cons (rest : List Char) :
    stripAuthScheme? ('a' :: 'u' :: 't' :: 'h' :: ':' :: '/' :: '/' :: rest)
      = some rest := rfl

/-- C2 (counterexample): the round trip fails for `token_expiry`.
`to_auth_uri` prints it as `token_expiry`, but `from_auth_uri` has no match
arm for that name and parses it back as the custom type
`custom("token_expiry")`. -/
theorem credential_ref_roundtrip_counterexample :
    CredentialRef.fromAuthUri
        (CredentialRef.toAuthUri ⟨⟨"github"⟩, ⟨"personal"⟩, .tokenExpiry⟩)
      = .ok ⟨⟨"github"⟩, ⟨"personal"⟩, .custom "token_expiry"⟩ ∧
    (CredentialType.custom "token_expiry") ≠ .tokenExpiry := by decide

/-- C2 (amended): the `auth://` round trip recovers the original
`CredentialRef` for every triple with valid identifiers (lowercase service,
no `/` in any printed segment) whose credential type's canonical name parses
back to the same type — every type except `token_expiry` and custom types
whose name collides with a reserved name or the `token` alias. -/
theorem credential_ref_roundtrip (r : CredentialRef)
    (hs1 : toLowerStr r.service.val = r.service.val)
    (hs2 : '/' ∉ r.service.val.data)
    (ha : '/' ∉ r.account.val.data)
    (ht1 : '/' ∉ r.credentialType.asStr.data)
    (ht2 : credTypeOfString r.credentialType.asStr = r.credentialType) :
    CredentialRef.fromAuthUri r.toAuthUri = .ok r := by
  have hdata : r.toAuthUri.data
      = 'a' :: 'u' :: 't' :: 'h' :: ':' :: '/' :: '/'
          :: (r.service.val.data
            ++ '/' :: (r.account.val.data
              ++ '/' :: r.credentialType.asStr.data)) := by
    simp only [CredentialRef.toAuthUri, String.data_append,
      List.append_assoc, List.nil_append, List.cons_append,
      List.singleton_append]
  simp only [CredentialRef.fromAuthUri, hdata, stripAuthScheme?_cons]
  rw [splitOnChar_append _ hs2, splitOnChar_append _ ha,
    splitOnChar_no_sep ht1]
  have e1 : ServiceId.new ⟨r.service.val.data⟩ = r.service := by
    show (⟨toLowerStr r.service.val⟩ : ServiceId) = r.service
    rw [hs1]
  have e2 : AccountId.new ⟨r.account.val.data⟩ = r.account := rfl
  have e3 : credTypeOfString ⟨r.credentialType.asStr.data⟩ = r.credentialType := ht2
  show Except.ok (⟨ServiceId.new ⟨r.service.val.data⟩,
    AccountId.new ⟨r.account.val.data⟩,
    credTypeOfString ⟨r.credentialType.asStr.data⟩⟩ : CredentialRef) = .ok r
  rw [e1, e2, e3]

/-- Witness for C2 (amended) at `(github, personal, api_key)`. -/
theorem credential_ref_roundtrip_witness :
    CredentialRef.fromAuthUri
        (CredentialRef.toAuthUri ⟨⟨"github"⟩, ⟨"personal"⟩, .apiKey⟩)
      = .ok ⟨⟨"github"⟩, ⟨"personal"⟩, .apiKey⟩ :=
  credential_ref_roundtrip ⟨⟨"github"⟩, ⟨"personal"⟩, .apiKey⟩
    (by decide) (by decide) (by decide) (by decide) (by decide)

/-! ## Claim C3 -/

/-- C3 (counterexample): `from_auth_uri` accepts `auth://svc//mystery`, whose
account segment is empty and whose third segment names no known credential
type, producing `custom("mystery")` instead of failing. -/
theorem resolver_grammar_counterexample :
    CredentialRef.fromAuthUri "auth://svc//mystery"
      = .ok ⟨⟨"svc"⟩, ⟨""⟩, .custom "mystery"⟩ ∧
    ("" : String).data = [] := by decide

/-- C3 (amended): parsing accepts exactly the strings that start with
`auth://` and whose remainder splits on `/` into exactly three segments —
the segments may be empty, `token` is an alias for `access_token`, and any
unknown third segment becomes a custom type.  Inputs with a different scheme
or segment count fail, and `resolve` surfaces those failures (and inputs in
no known scheme at all) as `InvalidFormat{message}`. -/
theorem fromAuthUri_of_stripNone {uri : String}
    (h : stripAuthScheme? uri.data = none) :
    CredentialRef.fromAuthUri uri
      = .error (.invalidScheme "auth"
          ⟨takeUntilSub (':' :: '/' :: '/' :: []) uri.data⟩) := by
  simp only [CredentialRef.fromAuthUri, h]

theorem fromAuthUri_of_stripSome {uri : String} {rest : List Char}
    (h : stripAuthScheme? uri.data = some rest) :
    CredentialRef.fromAuthUri uri
      = (match splitOnChar '/' rest with
        | [p1, p2, p3] =>
          .ok ⟨ServiceId.new ⟨p1⟩, AccountId.new ⟨p2⟩, credTypeOfString ⟨p3⟩⟩
        | parts =>
          .error (.invalidPath
            ("expected 3 path components (service/account/type), got "
              ++ ⟨natDigits parts.length⟩))) := by
  simp only [CredentialRef.fromAuthUri, h]

theorem resolver_uri_grammar (reference : String) :
    ((∃ r, CredentialRef.fromAuthUri reference = .ok r) ↔
      (∃ rest, stripAuthScheme? reference.data = some rest ∧
        (splitOnChar '/' rest).length = 3)) ∧
    credTypeOfString "token" = .accessToken ∧
    (∀ (σ : Type) (B : Backend σ)
      (oracle : String → Except TokenError TokenSet) (now buf : Int) (st : σ)
      (e : ParseError),
      matchesFront "auth://".data reference.data = true →
      CredentialRef.fromAuthUri reference = .error e →
      resolve B oracle now buf ResolverConfig.default st reference
        = (.error (.invalidFormat e.display), st)) ∧
    (∀ (σ : Type) (B : Backend σ)
      (oracle : String → Except TokenError TokenSet) (now buf : Int) (st : σ),
      matchesFront "auth://".data reference.data = false →
      matchesFront "vals:ref+".data reference.data = false →
      resolve B oracle now buf ResolverConfig.default st reference
        = (.error (.invalidFormat ("unknown reference format: " ++ reference)),
            st)) := by
  refine ⟨⟨?_, ?_⟩, rfl, ?_, ?_⟩
  · rintro ⟨r, hr⟩
    cases hstrip : stripAuthScheme? reference.data with
    | none =>
      rw [fromAuthUri_of_stripNone hstrip] at hr
      exact Except.noConfusion hr
    | some rest =>
      rw [fromAuthUri_of_stripSome hstrip] at hr
      refine ⟨rest, rfl, ?_⟩
      cases hsp : splitOnChar '/' rest with
      | nil => rw [hsp] at hr; simp at hr
      | cons p1 t1 =>
        cases t1 with
        | nil => rw [hsp] at hr; simp at hr
        | cons p2 t2 =>
          cases t2 with
          | nil => rw [hsp] at hr; simp at hr
          | cons p3 t3 =>
            cases t3 with
            | nil => simp
            | cons p4 t4 => rw [hsp] at hr; simp at hr
  · rintro ⟨rest, hstrip, hlen⟩
    obtain ⟨p1, p2, p3, hsp⟩ := List.length_eq_three.mp hlen
    refine ⟨⟨ServiceId.new ⟨p1⟩, AccountId.new ⟨p2⟩, credTypeOfString ⟨p3⟩⟩, ?_⟩
    simp only [CredentialRef.fromAuthUri, hstrip, hsp]
  · intro σ B oracle now buf st e hpre herr
    simp [resolve, hpre, herr, ResolverConfig.default]
  · intro σ B oracle now buf st h1 h2
    simp [resolve, h1, h2]

/-- Witness for C3 (amended): a well-formed URI is accepted; a string in no
known scheme resolves to `InvalidFormat`. -/
theorem resolver_uri_grammar_witness :
    (∃ r, CredentialRef.fromAuthUri "auth://github/personal/api_key" = .ok r) ∧
    resolve memBackend (fun _ => .error (.oauthError "boom")) 0 0
        ResolverConfig.default MemStore.empty "bogus-reference"
      = (.error (.invalidFormat
            ("unknown reference format: " ++ "bogus-reference")),
          MemStore.empty) :=
  ⟨(resolver_uri_grammar "auth://github/personal/api_key").1.mpr
      ⟨"github/personal/api_key".data, by decide⟩,
   (resolver_uri_grammar "bogus-reference").2.2.2 MemStore memBackend
      (fun _ => .error (.oauthError "boom")) 0 0 MemStore.empty
      (by decide) (by decide)⟩

/-! ## Claim C4 -/

@[simp] theorem stringMk_data (s : String) : (⟨s.data⟩ : String) = s := rfl

@[simp] theorem secretMk_val (s : Secret) : (⟨s.val⟩ : Secret) = s := rfl

/-- Comma-joining then comma-splitting recovers a scope list whose entries
are non-empty and comma-free. -/
theorem splitScopes_joinComma (scopes : List String)
    (h : ∀ sc ∈ scopes, sc.data ≠ [] ∧ ',' ∉ sc.data) :
    splitScopes (joinComma scopes) = scopes := by
  induction scopes with
  | nil => rfl
  | cons p rest ih =>
    obtain ⟨hne, hnc⟩ := h p (List.mem_cons_self _ _)
    cases rest with
    | nil =>
      have hd : (joinComma [p]).data = p.data := rfl
      simp only [splitScopes, hd, splitOnChar_no_sep hnc]
      simp [hne]
    | cons q rest2 =>
      have hrest : ∀ sc ∈ q :: rest2, sc.data ≠ [] ∧ ',' ∉ sc.data :=
        fun sc hm => h sc (List.mem_cons_of_mem _ hm)
      have hd : (joinComma (p :: q :: rest2)).data
          = p.data ++ ',' :: (joinComma (q :: rest2)).data := rfl
      have step : splitScopes (joinComma (p :: q :: rest2))
          = ⟨p.data⟩ :: splitScopes (joinComma (q :: rest2)) := by
        simp only [splitScopes, hd, splitOnChar_append _ hnc, List.filter_cons]
        simp [hne]
      rw [step, ih hrest, stringMk_data]

/-- The store written by `store_token_set` on the memory backend: the four
conditional writes in program order. -/
theorem storeTokenSetM_eq (st : MemStore) (s : ServiceId) (a : AccountId)
    (ts : TokenSet) :
    storeTokenSetM st s a ts =
      (fun st3 =>
        match ts.refreshToken with
        | some r => memSet st3 (credentialKey s a .refreshToken) ⟨r.val⟩
        | none => st3)
      ((fun st2 =>
        if ts.accessToken.scopes.isEmpty then st2
        else memSet st2 (credentialKey s a (.custom "token_scopes"))
          ⟨joinComma ts.accessToken.scopes⟩)
       ((fun st1 =>
        match ts.accessToken.expiresAt with
        | some e => memSet st1 (credentialKey s a .tokenExpiry)
            ⟨intToString (datetimeTimestamp e)⟩
        | none => st1)
        (memSet st (credentialKey s a .accessToken)
          ⟨ts.accessToken.accessToken.val⟩))) := by
  cases hE : ts.accessToken.expiresAt <;> cases hR : ts.refreshToken <;>
    by_cases hS : ts.accessToken.scopes.isEmpty <;>
      simp [storeTokenSetM, storeTokenSet, storeCredential, memBackend,
        hE, hR, hS]

theorem storeTokenSetM_lookup_access (st : MemStore) (s : ServiceId)
    (a : AccountId) (ts : TokenSet) :
    storeTokenSetM st s a ts (credentialKey s a .accessToken)
      = some ⟨ts.accessToken.accessToken.val⟩ := by
  have neAR : credentialKey s a CredentialType.accessToken
      ≠ credentialKey s a CredentialType.refreshToken :=
    credentialKey_ne s a (by decide)
  have neAS : credentialKey s a CredentialType.accessToken
      ≠ credentialKey s a (CredentialType.custom "token_scopes") :=
    credentialKey_ne s a (by decide)
  have neAE : credentialKey s a CredentialType.accessToken
      ≠ credentialKey s a CredentialType.tokenExpiry :=
    credentialKey_ne s a (by decide)
  rw [storeTokenSetM_eq]
  cases hE : ts.accessToken.expiresAt <;> cases hR : ts.refreshToken <;>
    by_cases hS : ts.accessToken.scopes.isEmpty <;>
      simp [memSet, hS, neAR, neAS, neAE]

theorem storeTokenSetM_lookup_expiry (st : MemStore) (s : ServiceId)
    (a : AccountId) (ts : TokenSet) :
    storeTokenSetM st s a ts (credentialKey s a .tokenExpiry)
      = match ts.accessToken.expiresAt with
        | some e => some ⟨intToString (datetimeTimestamp e)⟩
        | none => st (credentialKey s a .tokenExpiry) := by
  have neER : credentialKey s a CredentialType.tokenExpiry
      ≠ credentialKey s a CredentialType.refreshToken :=
    credentialKey_ne s a (by decide)
  have neES : credentialKey s a CredentialType.tokenExpiry
      ≠ credentialKey s a (CredentialType.custom "token_scopes") :=
    credentialKey_ne s a (by decide)
  have neEA : credentialKey s a CredentialType.tokenExpiry
      ≠ credentialKey s a CredentialType.accessToken :=
    credentialKey_ne s a (by decide)
  rw [storeTokenSetM_eq]
  cases hE : ts.accessToken.expiresAt <;> cases hR : ts.refreshToken <;>
    by_cases hS : ts.accessToken.scopes.isEmpty <;>
      simp [memSet, hS, neER, neES, neEA]

theorem storeTokenSetM_lookup_scopes (st : MemStore) (s : ServiceId)
    (a : AccountId) (ts : TokenSet) :
    storeTokenSetM st s a ts (credentialKey s a (.custom "token_scopes"))
      = if ts.accessToken.scopes.isEmpty then
          st (credentialKey s a (.custom "token_scopes"))
        else some ⟨joinComma ts.accessToken.scopes⟩ := by
  have neSR : credentialKey s a (CredentialType.custom "token_scopes")
      ≠ credentialKey s a CredentialType.refreshToken :=
    credentialKey_ne s a (by decide)
  have neSE : credentialKey s a (CredentialType.custom "token_scopes")
      ≠ credentialKey s a CredentialType.tokenExpiry :=
    credentialKey_ne s a (by decide)
  have neSA : credentialKey s a (CredentialType.custom "token_scopes")
      ≠ credentialKey s a CredentialType.accessToken :=
    credentialKey_ne s a (by decide)
  rw [storeTokenSetM_eq]
  cases hE : ts.accessToken.expiresAt <;> cases hR : ts.refreshToken <;>
    by_cases hS : ts.accessToken.scopes.isEmpty <;>
      simp [memSet, hS, neSR, neSE, neSA]

theorem storeTokenSetM_lookup_refresh (st : MemStore) (s : ServiceId)
    (a : AccountId) (ts : TokenSet) :
    storeTokenSetM st s a ts (credentialKey s a .refreshToken)
      = match ts.refreshToken with
        | some r => some ⟨r.val⟩
        | none => st (credentialKey s a .refreshToken) := by
  have neRS : credentialKey s a CredentialType.refreshToken
      ≠ credentialKey s a (CredentialType.custom "token_scopes") :=
    credentialKey_ne s a (by decide)
  have neRE : credentialKey s a CredentialType.refreshToken
      ≠ credentialKey s a CredentialType.tokenExpiry :=
    credentialKey_ne s a (by decide)
  have neRA : credentialKey s a CredentialType.refreshToken
      ≠ credentialKey s a CredentialType.accessToken :=
    credentialKey_ne s a (by decide)
  rw [storeTokenSetM_eq]
  cases hE : ts.accessToken.expiresAt <;> cases hR : ts.refreshToken <;>
    by_cases hS : ts.accessToken.scopes.isEmpty <;>
      simp [memSet, hS, neRS, neRE, neRA]

/-- C4 (counterexample): `store_token_set` stores `expires_at` as whole
epoch seconds, so a sub-second expiry (here 1.5 s after the epoch) comes
back truncated from `get_token_set` — not field-by-field equal. -/
theorem store_token_set_roundtrip_counterexample :
    getTokenSetM 0
        (storeTokenSetM MemStore.empty ⟨"svc"⟩ ⟨"acct"⟩
          ⟨⟨⟨"tok"⟩, "Bearer", some 1500000000, []⟩, none, 0⟩)
        ⟨"svc"⟩ ⟨"acct"⟩
      = .ok (some ⟨⟨⟨"tok"⟩, "Bearer", some 1000000000, []⟩, none, 0⟩) ∧
    some (1000000000 : Int) ≠ some (1500000000 : Int) := by decide

/-- C4 (amended): `store_token_set` is idempotent on the memory store
(storing the same TokenSet twice leaves the store extensionally identical to
storing it once), and `get_token_set` after `store_token_set` recovers the
access-token value, `expires_at`, `scopes` and `refresh_token` field by
field, provided `expires_at` is on a whole second (it is persisted as epoch
seconds), the scopes are non-empty comma-free strings, and the store held no
stale expiry/scopes/refresh entries for the account. -/
theorem store_token_set_roundtrip (st : MemStore) (s : ServiceId)
    (a : AccountId) (ts : TokenSet) (now : Int)
    (hwhole : ∀ e, ts.accessToken.expiresAt = some e →
      datetimeFromTimestamp (datetimeTimestamp e) = e)
    (hscopes : ∀ sc ∈ ts.accessToken.scopes, sc.data ≠ [] ∧ ',' ∉ sc.data)
    (hcleanE : ts.accessToken.expiresAt = none →
      st (credentialKey s a .tokenExpiry) = none)
    (hcleanS : ts.accessToken.scopes = [] →
      st (credentialKey s a (.custom "token_scopes")) = none)
    (hcleanR : ts.refreshToken = none →
      st (credentialKey s a .refreshToken) = none) :
    storeTokenSetM (storeTokenSetM st s a ts) s a ts
      = storeTokenSetM st s a ts ∧
    ∃ ts' : TokenSet,
      getTokenSetM now (storeTokenSetM st s a ts) s a = .ok (some ts') ∧
      ts'.accessToken.accessToken = ts.accessToken.accessToken ∧
      ts'.accessToken.expiresAt = ts.accessToken.expiresAt ∧
      ts'.accessToken.scopes = ts.accessToken.scopes ∧
      ts'.refreshToken = ts.refreshToken := by
  have hA := storeTokenSetM_lookup_access st s a ts
  have hE2 := storeTokenSetM_lookup_expiry st s a ts
  have hS2 := storeTokenSetM_lookup_scopes st s a ts
  have hR2 := storeTokenSetM_lookup_refresh st s a ts
  constructor
  · rw [storeTokenSetM_eq (storeTokenSetM st s a ts), storeTokenSetM_eq st]
    funext q
    cases hE : ts.accessToken.expiresAt <;> cases hR : ts.refreshToken <;>
      by_cases hS : ts.accessToken.scopes.isEmpty <;>
        simp only [hE, hR, hS, memSet, if_true, Bool.not_true,
          Bool.false_eq_true, if_false] <;>
        split_ifs <;> rfl
  · refine ⟨⟨⟨⟨ts.accessToken.accessToken.val⟩, "Bearer",
      ts.accessToken.expiresAt, ts.accessToken.scopes⟩,
      ts.refreshToken, now⟩, ?_, rfl, rfl, rfl, rfl⟩
    cases hE : ts.accessToken.expiresAt with
    | none =>
      have hcE := hcleanE hE
      cases hR : ts.refreshToken with
      | none =>
        have hcR := hcleanR hR
        by_cases hS : ts.accessToken.scopes.isEmpty
        · have hsc : ts.accessToken.scopes = [] := by simpa using hS
          simp [getTokenSetM, getTokenSet, getCredential, memBackend,
            hA, hE2, hS2, hR2, hE, hR, hS, hcE, hcleanS hsc, hcR, hsc,
            Token.new, Token.withExpiry, Token.withScopes,
            TokenSet.new, TokenSet.withRefreshToken]
        · simp [getTokenSetM, getTokenSet, getCredential, memBackend,
            hA, hE2, hS2, hR2, hE, hR, hS, hcE, hcR,
            splitScopes_joinComma _ hscopes,
            Token.new, Token.withExpiry, Token.withScopes,
            TokenSet.new, TokenSet.withRefreshToken]
      | some r =>
        by_cases hS : ts.accessToken.scopes.isEmpty
        · have hsc : ts.accessToken.scopes = [] := by simpa using hS
          simp [getTokenSetM, getTokenSet, getCredential, memBackend,
            hA, hE2, hS2, hR2, hE, hR, hS, hcE, hcleanS hsc, hsc,
            Token.new, Token.withExpiry, Token.withScopes,
            TokenSet.new, TokenSet.withRefreshToken]
        · simp [getTokenSetM, getTokenSet, getCredential, memBackend,
            hA, hE2, hS2, hR2, hE, hR, hS, hcE,
            splitScopes_joinComma _ hscopes,
            Token.new, Token.withExpiry, Token.withScopes,
            TokenSet.new, TokenSet.withRefreshToken]
    | some e =>
      have hwe := hwhole e hE
      cases hR : ts.refreshToken with
      | none =>
        have hcR := hcleanR hR
        by_cases hS : ts.accessToken.scopes.isEmpty
        · have hsc : ts.accessToken.scopes = [] := by simpa using hS
          simp [getTokenSetM, getTokenSet, getCredential, memBackend,
            hA, hE2, hS2, hR2, hE, hR, hS, hcleanS hsc, hcR, hsc, hwe,
            parseInt?_intToString,
            Token.new, Token.withExpiry, Token.withScopes,
            TokenSet.new, TokenSet.withRefreshToken]
        · simp [getTokenSetM, getTokenSet, getCredential, memBackend,
            hA, hE2, hS2, hR2, hE, hR, hS, hcR, hwe,
            parseInt?_intToString, splitScopes_joinComma _ hscopes,
            Token.new, Token.withExpiry, Token.withScopes,
            TokenSet.new, TokenSet.withRefreshToken]
      | some r =>
        by_cases hS : ts.accessToken.scopes.isEmpty
        · have hsc : ts.accessToken.scopes = [] := by simpa using hS
          simp [getTokenSetM, getTokenSet, getCredential, memBackend,
            hA, hE2, hS2, hR2, hE, hR, hS, hcleanS hsc, hsc, hwe,
            parseInt?_intToString,
            Token.new, Token.withExpiry, Token.withScopes,
            TokenSet.new, TokenSet.withRefreshToken]
        · simp [getTokenSetM, getTokenSet, getCredential, memBackend,
            hA, hE2, hS2, hR2, hE, hR, hS, hwe,
            parseInt?_intToString, splitScopes_joinComma _ hscopes,
            Token.new, Token.withExpiry, Token.withScopes,
            TokenSet.new, TokenSet.withRefreshToken]

/-- Witness for C4 (amended): a whole-second expiry, two clean scopes, a
refresh token and the empty store. -/
theorem store_token_set_roundtrip_witness :
    (let ts : TokenSet :=
      ⟨⟨⟨"tok"⟩, "Bearer", some 3600000000000, ["read", "write"]⟩,
        some ⟨"r1"⟩, 0⟩
    storeTokenSetM (storeTokenSetM MemStore.empty ⟨"svc"⟩ ⟨"acct"⟩ ts)
        ⟨"svc"⟩ ⟨"acct"⟩ ts
      = storeTokenSetM MemStore.empty ⟨"svc"⟩ ⟨"acct"⟩ ts ∧
    ∃ ts' : TokenSet,
      getTokenSetM 7 (storeTokenSetM MemStore.empty ⟨"svc"⟩ ⟨"acct"⟩ ts)
        ⟨"svc"⟩ ⟨"acct"⟩ = .ok (some ts') ∧
      ts'.accessToken.accessToken = ts.accessToken.accessToken ∧
      ts'.accessToken.expiresAt = ts.accessToken.expiresAt ∧
      ts'.accessToken.scopes = ts.accessToken.scopes ∧
      ts'.refreshToken = ts.refreshToken) :=
  store_token_set_roundtrip MemStore.empty ⟨"svc"⟩ ⟨"acct"⟩
    ⟨⟨⟨"tok"⟩, "Bearer", some 3600000000000, ["read", "write"]⟩,
      some ⟨"r1"⟩, 0⟩ 7
    (fun e he => by cases he; decide)
    (by decide)
    (fun h => Option.noConfusion h)
    (fun h => List.noConfusion h)
    (fun h => Option.noConfusion h)

/-! ## Claim C9 -/

/-- C9 (counterexample): a callback request carrying a code but no `state`
parameter at all is accepted and its code returned, although its (absent)
state does not match the expected value — the state check is skipped when
the parameter is missing. -/
theorem callback_missing_state_counterexample :
    handleCallbackRequest "expected-state"
        "GET /callback?code=abc123 HTTP/1.1"
      = .respond (.ok "abc123") ∧
    (parseQueryParams "code=abc123".data).state = none := by decide

/-- C9 (amended): the listener rejects every request that carries a `state`
parameter different from the expected value, answering
`state parameter mismatch` and returning no code; a request without a
`state` parameter skips the check entirely. -/
theorem callback_state_mismatch (expected req sstate : String)
    (firstLine path query : List Char)
    (hl : linesNext? req = some firstLine)
    (hp : (splitDropping Char.isWhitespace firstLine).get? 1 = some path)
    (hq : (splitOnChar '?' path).get? 1 = some query)
    (he : (parseQueryParams query).error = none)
    (hs : (parseQueryParams query).state = some sstate)
    (hne : sstate ≠ expected) :
    handleCallbackRequest expected req
      = .respond (.error (.oauthError "state parameter mismatch")) := by
  simp only [handleCallbackRequest, hl, hp, hq, he, hs]
  rw [if_neg hne]

/-- Witness for C9 (amended): mismatching state `bad` against expected
`good`. -/
theorem callback_state_mismatch_witness :
    handleCallbackRequest "good" "GET /cb?code=a&state=bad HTTP/1.1"
      = .respond (.error (.oauthError "state parameter mismatch")) :=
  callback_state_mismatch "good" "GET /cb?code=a&state=bad HTTP/1.1" "bad"
    "GET /cb?code=a&state=bad HTTP/1.1".data
    "/cb?code=a&state=bad".data
    "code=a&state=bad".data
    (by decide) (by decide) (by decide) (by decide) (by decide) (by decide)

/-! ## Claim C10 -/

theorem findAccount_setLastUsedFirst (now : Int) (s : ServiceId)
    (a : AccountId) (l : List Account) :
    findAccount (setLastUsedFirst now s a l) s a
      = (findAccount l s a).map (fun acct => { acct with lastUsed := some now }) := by
  induction l with
  | nil => rfl
  | cons acct rest ih =>
    by_cases hc : acct.service = s ∧ acct.id = a
    · simp [setLastUsedFirst, findAccount, List.find?, hc]
    · have hf : decide (acct.service = s ∧ acct.id = a) = false :=
        decide_eq_false hc
      simp only [setLastUsedFirst, if_neg hc, findAccount] at ih ⊢
      simp only [List.find?, hf]
      exact ih

/-- C10: when the requested account exists, the daemon `get_token` handler
updates the account's `last_used` timestamp (and persists the account file)
before token issuance, and that update survives no matter how
`ensure_access_token` turns out — a failed `get_token` still mutates the
account record. -/
theorem get_token_updates_last_used
    (oracle : String → Except TokenError TokenSet) (now buf : Int)
    (accounts : AccountStoreState) (tokenStore : MemStore)
    (service account : String) (acct : Account)
    (hfound : getAccount accounts (ServiceId.new service)
        (AccountId.new account) = some acct) :
    (getTokenHandler oracle now buf accounts tokenStore service account).2.1
      = saveAccounts { accounts with
          mem := setLastUsedFirst now (ServiceId.new service)
            (AccountId.new account) accounts.mem } ∧
    findAccount
        (getTokenHandler oracle now buf accounts tokenStore service account).2.1.mem
        (ServiceId.new service) (AccountId.new account)
      = some { acct with lastUsed := some now } ∧
    (getTokenHandler oracle now buf accounts tokenStore service account).2.1.file
      = (getTokenHandler oracle now buf accounts tokenStore service account).2.1.mem := by
  have hfa : findAccount accounts.mem (ServiceId.new service)
      (AccountId.new account) = some acct := hfound
  have hstate :
      (getTokenHandler oracle now buf accounts tokenStore service account).2.1
        = saveAccounts { accounts with
            mem := setLastUsedFirst now (ServiceId.new service)
              (AccountId.new account) accounts.mem } := by
    cases hens : ensureAccessTokenM oracle now buf tokenStore
        (ServiceId.new service) (AccountId.new account) with
    | mk res store2 =>
      cases res <;>
        simp [getTokenHandler, hfound, updateLastUsed, hfa, hens, saveAccounts]
  refine ⟨hstate, ?_, ?_⟩
  · rw [hstate]
    simp [saveAccounts, findAccount_setLastUsedFirst, hfa]
  · rw [hstate]
    rfl

/-- Witness for C10: one configured account, empty token store (so
`ensure_access_token` fails), yet `last_used` is updated and saved. -/
theorem get_token_updates_last_used_witness :
    (getTokenHandler (fun _ => .error (.oauthError "boom")) 42
        defaultExpiryBuffer
        ⟨[⟨⟨"github"⟩, ⟨"main"⟩, ["repo"], 0, none⟩],
          [⟨⟨"github"⟩, ⟨"main"⟩, ["repo"], 0, none⟩]⟩
        MemStore.empty "github" "main").2.1
      = saveAccounts ⟨setLastUsedFirst 42 (ServiceId.new "github")
            (AccountId.new "main")
            [⟨⟨"github"⟩, ⟨"main"⟩, ["repo"], 0, none⟩],
          [⟨⟨"github"⟩, ⟨"main"⟩, ["repo"], 0, none⟩]⟩ :=
  (get_token_updates_last_used (fun _ => .error (.oauthError "boom")) 42
    defaultExpiryBuffer
    ⟨[⟨⟨"github"⟩, ⟨"main"⟩, ["repo"], 0, none⟩],
      [⟨⟨"github"⟩, ⟨"main"⟩, ["repo"], 0, none⟩]⟩
    MemStore.empty "github" "main"
    ⟨⟨"github"⟩, ⟨"main"⟩, ["repo"], 0, none⟩ (by decide)).1

end Sigilforge
